import Mathlib

/-!
Shallow embedding of the user identity and asset-storage service of the
`remove_bg_image` repository (`src/user_service.py` composed by the Flask
handlers of `src/server.py`), together with theorems settling the frozen
claims about its specification.

Modelling conventions:
* the SQLite `users` and `user_images` tables are lists of rows inside a
  `DB` structure; `AUTOINCREMENT` primary keys are explicit counters;
* file-system paths are lists of components (`os.path.join` appends a
  component); the set of created file-system entries (directories and
  files) is a field of `DB`, so frame claims about "no file-system entry"
  are statements about that field;
* `datetime.utcnow()` is an external clock: operations take the current
  time as a `Nat` argument; the `strftime("%Y%m%d%H%M%S%f")` digit string
  is the decimal rendering of that `Nat`;
* `uuid.uuid4().hex` is an external supply of fresh, globally unique,
  non-empty opaque strings; it is modelled by a nonce counter threaded
  through the state and an injective rendering into non-empty strings;
* the werkzeug password-hash primitive is salted and one-way in reality;
  the claims only use that `check_password_hash (generate_password_hash p) p`
  holds, so it is modelled by a deterministic tagged string;
* Python string primitives (`str.strip`, `str.lower`, `str.split`) are
  re-implemented structurally over `String.data` so that every operation
  is kernel-computable.
-/

namespace RemoveBg

/-! ### Python string primitives -/

/-- Python `str.strip()` on a character list: drop whitespace from both ends. -/
def stripChars (l : List Char) : List Char :=
  ((l.dropWhile Char.isWhitespace).reverse.dropWhile Char.isWhitespace).reverse

/-- Python `str.strip()`. -/
def pyStrip (s : String) : String :=
  String.mk (stripChars s.data)

/-- Python `str.lower()` on one character (ASCII case folding, as used by the
usernames in this service). -/
def lowerChar (c : Char) : Char :=
  if 'A' ≤ c ∧ c ≤ 'Z' then Char.ofNat (c.toNat + 32) else c

/-- Python `str.lower()`. -/
def pyLower (s : String) : String :=
  String.mk (s.data.map lowerChar)

/-- Python `str.split()` (no argument): split on whitespace runs, discarding
empty pieces. Auxiliary recursion carrying the current word reversed. -/
def splitWSAux : List Char → List Char → List (List Char)
  | [], acc => if acc.isEmpty then [] else [acc.reverse]
  | c :: cs, acc =>
    if c.isWhitespace then
      if acc.isEmpty then splitWSAux cs [] else acc.reverse :: splitWSAux cs []
    else
      splitWSAux cs (c :: acc)

/-- Python `str.split()` (no argument). -/
def pySplitWS (s : String) : List String :=
  (splitWSAux s.data []).map String.mk

/-- Python `str.split(sep)` for a single-character separator: keeps empty
pieces, exactly like `"a  b".split(" ") == ["a", "", "b"]`. -/
def splitCharAux (sep : Char) : List Char → List Char → List (List Char)
  | [], acc => [acc.reverse]
  | c :: cs, acc =>
    if c = sep then acc.reverse :: splitCharAux sep cs []
    else splitCharAux sep cs (c :: acc)

/-- Python `str.split(sep)` for a one-character separator string. -/
def pySplitChar (sep : Char) (s : String) : List String :=
  (splitCharAux sep s.data []).map String.mk

/-! ### Decimal rendering (`strftime` digit strings, nonce rendering) -/

/-- The ASCII digit character for `d < 10`. -/
def digitChar (d : Nat) : Char :=
  Char.ofNat (48 + d)

/-- Fuel-bounded decimal digit list of a natural number (most significant
digit first). The fuel argument makes the recursion structural, hence
kernel-computable; `decRepr` always supplies enough fuel. -/
def decAux : Nat → Nat → List Char
  | 0, _ => []
  | fuel + 1, n =>
    if n < 10 then [digitChar n]
    else decAux fuel (n / 10) ++ [digitChar (n % 10)]

/-- Decimal rendering of a natural number as a string of ASCII digits. -/
def decRepr (n : Nat) : String :=
  String.mk (decAux (n + 1) n)

/-- Value of a digit list read back as a decimal number; the inverse used to
prove `decRepr` injective. -/
def decVal (l : List Char) : Nat :=
  l.foldl (fun a c => a * 10 + (c.toNat - 48)) 0

/-! ### External primitives

`werkzeug.security.generate_password_hash` / `check_password_hash` and
`uuid.uuid4().hex`, modelled as stated in the header. -/

/-- Modelled external primitive `werkzeug.security.generate_password_hash`:
a one-way hash of the password. The model keeps the defining property the
code relies on: checking a password against its own hash succeeds, and
against any other password's hash fails. -/
def generate_password_hash (password : String) : String :=
  "pbkdf2-sha256$" ++ password

/-- Modelled external primitive `werkzeug.security.check_password_hash`. -/
def check_password_hash (pwhash password : String) : Bool :=
  pwhash == generate_password_hash password

/-- Modelled external primitive `uuid.uuid4().hex`: the `n`-th fresh token of
the random supply, rendered as a non-empty opaque string. Injectivity of the
rendering models global uniqueness of the uuids. -/
def mkToken (n : Nat) : String :=
  decRepr n

/-! ### Data model: the SQLite tables and the file system -/

/-- One row of the `users` table created by
`UserService._initialize_database` (`src/user_service.py`, lines 83-93):
`id INTEGER PRIMARY KEY AUTOINCREMENT`, `username TEXT UNIQUE NOT NULL`,
`password_hash TEXT NOT NULL`, `auth_token TEXT` (nullable),
`created_at TEXT NOT NULL` (an `isoformat` timestamp, modelled as `Nat`). -/
structure UserRow where
  id : Nat
  username : String
  password_hash : String
  auth_token : Option String
  created_at : Nat
  deriving Repr, DecidableEq

/-- One row of the `user_images` table (`src/user_service.py`, lines 94-105):
`id INTEGER PRIMARY KEY AUTOINCREMENT`, `user_id INTEGER NOT NULL`,
`original_filename TEXT NOT NULL`, `stored_path TEXT NOT NULL`,
`uploaded_at TEXT NOT NULL` (isoformat timestamp, modelled as `Nat`).
`stored_path` is a path, modelled as its list of components. -/
structure ImageRow where
  id : Nat
  user_id : Nat
  original_filename : String
  stored_path : List String
  uploaded_at : Nat
  deriving Repr, DecidableEq

/-- A werkzeug `FileStorage` as `save_user_image` sees it: its `filename`
attribute and its byte content. Werkzeug defines `FileStorage.__bool__` as
`bool(self.filename)`, embedded below as `fileStorageBool`. -/
structure FileStorage where
  filename : String
  content : List Nat
  deriving Repr, DecidableEq

/-- Werkzeug `FileStorage.__bool__`: truthy iff the filename is non-empty. -/
def fileStorageBool (fs : FileStorage) : Bool :=
  !(fs.filename == "")

/-- The persistent state of the service: the two SQLite tables with their
`AUTOINCREMENT` counters, the uuid-supply nonce, and the set of file-system
entries (directories and files) that have been created under the storage
root. -/
structure DB where
  users : List UserRow
  images : List ImageRow
  nextUserId : Nat
  nextImageId : Nat
  nextNonce : Nat
  fsEntries : List (List String)
  deriving Repr, DecidableEq

/-- The freshly initialized state: empty tables (SQLite `AUTOINCREMENT`
starts row ids at 1), no file-system entries yet. -/
def initDB : DB :=
  { users := [], images := [], nextUserId := 1, nextImageId := 1,
    nextNonce := 0, fsEntries := [] }

/-- Idempotent creation of a file-system entry (`os.makedirs(..,
exist_ok=True)` for directories; a fresh write for files). -/
def fsAdd (entries : List (List String)) (e : List String) : List (List String) :=
  if e ∈ entries then entries else entries ++ [e]

/-! ### Path constants and helpers (`os.path`) -/

/-- The repository root hard-coded in `UserService.__init__` and used as the
`start` of `os.path.relpath` in `save_user_image`; paths are modelled as
component lists. -/
def repoRoot : List String :=
  ["Volumes", "Development", "projects", "Python", "remove_bg_image"]

/-- The default `user_upload_root` of `UserService.__init__`:
`<repoRoot>/uploads/user_uploads`. -/
def userUploadRoot : List String :=
  repoRoot ++ ["uploads", "user_uploads"]

/-- Model of `os.path.relpath(path, start)` for the case exercised by the
code, where `start` is an ancestor of `path`: strip the `start` prefix. -/
def relpath (path start : List String) : List String :=
  if start.isPrefixOf path then path.drop start.length else path

/-! ### `werkzeug.utils.secure_filename` -/

/-- Characters kept by werkzeug's `_filename_ascii_strip_re` (the complement
of `[^A-Za-z0-9_.-]`). -/
def filenameAllowedChar (c : Char) : Bool :=
  c.isAlpha || c.isDigit || c == '_' || c == '.' || c == '-'

/-- True for the characters `secure_filename` strips from both ends
(`.strip("._")`). -/
def dotUnderscore (c : Char) : Bool :=
  c == '.' || c == '_'

/-- Embedding of `werkzeug.utils.secure_filename` (posix branch): join the
whitespace-split pieces with `"_"`, delete every character outside
`[A-Za-z0-9_.-]`, then strip leading and trailing `.` and `_`. -/
def secure_filename (filename : String) : String :=
  let joined := String.intercalate "_" (pySplitWS filename)
  let kept := joined.data.filter filenameAllowedChar
  String.mk (((kept.dropWhile dotUnderscore).reverse.dropWhile dotUnderscore).reverse)

/-! ### `UserService` operations (`src/user_service.py`) -/

/-- The username normalization of `register_user` and `login_user`:
`username.strip().lower()`. -/
def normalizeUsername (username : String) : String :=
  pyLower (pyStrip username)

/-- Embedding of `UserService.register_user` (lines 108-136): normalize the
username, reject an empty normalized username, hash the password, then
`INSERT INTO users`; the `username TEXT UNIQUE` constraint makes the insert
itself fail atomically (`sqlite3.IntegrityError`) when a row with the same
username already exists, and `register_user` returns `False` in that case.
Returns the created flag and the new state; `now` is `datetime.utcnow()`. -/
def register_user (db : DB) (username password : String) (now : Nat) : Bool × DB :=
  let normalized := normalizeUsername username
  if normalized == "" then (false, db)
  else
    let password_hash := generate_password_hash password
    if db.users.any (fun r => r.username == normalized) then
      (false, db)
    else
      (true,
        { db with
            users := db.users ++
              [{ id := db.nextUserId, username := normalized,
                 password_hash := password_hash, auth_token := none,
                 created_at := now }],
            nextUserId := db.nextUserId + 1 })

/-- Embedding of `UserService.login_user` (lines 138-164): look the user up
by normalized username (`SELECT id, password_hash FROM users WHERE username
= ?` with `fetchone`), fail on a missing row or a failed password check,
otherwise mint a fresh `uuid4` token and `UPDATE users SET auth_token = ?
WHERE id = ?`. Returns the token (or `none`) and the new state. -/
def login_user (db : DB) (username password : String) : Option String × DB :=
  let normalized := normalizeUsername username
  match db.users.find? (fun r => r.username == normalized) with
  | none => (none, db)
  | some row =>
    if check_password_hash row.password_hash password then
      let token := mkToken db.nextNonce
      (some token,
        { db with
            users := db.users.map (fun r =>
              if r.id == row.id then { r with auth_token := some token } else r),
            nextNonce := db.nextNonce + 1 })
    else (none, db)

/-- The `id, username` projection returned by `get_user_by_token`. -/
structure UserIdent where
  id : Nat
  username : String
  deriving Repr, DecidableEq

/-- Embedding of `UserService.get_user_by_token` (lines 166-183): a missing
(`None`) or empty token is rejected before any lookup (`if not token`);
otherwise `SELECT id, username FROM users WHERE auth_token = ?` with
`fetchone`. Read-only. -/
def get_user_by_token (db : DB) (token : Option String) : Option UserIdent :=
  match token with
  | none => none
  | some t =>
    if t == "" then none
    else (db.users.find? (fun r => r.auth_token == some t)).map
      (fun r => { id := r.id, username := r.username })

/-- Embedding of `UserService.save_user_image` (lines 185-241): reject a
falsy `file_storage` or an empty filename; otherwise sanitize the filename,
build `"{timestamp}_{safe_filename}"` under
`<user_upload_root>/<username>/`, create the per-user folder idempotently,
write the bytes, and only then insert the `user_images` row holding the
storage-root-relative path. Returns the relative path (or `none`) and the
new state; `now` is `datetime.utcnow()`. -/
def save_user_image (db : DB) (user_id : Nat) (username : String)
    (file_storage : FileStorage) (now : Nat) : Option (List String) × DB :=
  if !fileStorageBool file_storage || file_storage.filename == "" then
    (none, db)
  else
    let safe_filename := secure_filename file_storage.filename
    let user_folder := userUploadRoot ++ [username]
    let stored_filename := decRepr now ++ "_" ++ safe_filename
    let stored_path := user_folder ++ [stored_filename]
    let entries := fsAdd (fsAdd db.fsEntries user_folder) stored_path
    let relative_path := relpath stored_path repoRoot
    (some relative_path,
      { db with
          fsEntries := entries,
          images := db.images ++
            [{ id := db.nextImageId, user_id := user_id,
               original_filename := safe_filename,
               stored_path := relative_path, uploaded_at := now }],
          nextImageId := db.nextImageId + 1 })

/-- The metadata triple returned for each row by `list_user_images`. -/
structure ImageMeta where
  original_filename : String
  stored_path : List String
  uploaded_at : Nat
  deriving Repr, DecidableEq

/-- The projection applied to each selected row. -/
def toMeta (r : ImageRow) : ImageMeta :=
  { original_filename := r.original_filename, stored_path := r.stored_path,
    uploaded_at := r.uploaded_at }

/-- Insertion step of `ORDER BY uploaded_at DESC`: place `x` before the
first element whose `uploaded_at` does not exceed it. -/
def insertDesc (x : ImageRow) : List ImageRow → List ImageRow
  | [] => [x]
  | y :: ys =>
    if y.uploaded_at ≤ x.uploaded_at then x :: y :: ys
    else y :: insertDesc x ys

/-- `ORDER BY uploaded_at DESC` as an insertion sort. -/
def sortDesc (l : List ImageRow) : List ImageRow :=
  l.foldr insertDesc []

/-- Embedding of `UserService.list_user_images` (lines 243-273):
`SELECT original_filename, stored_path, uploaded_at FROM user_images WHERE
user_id = ? ORDER BY uploaded_at DESC`, projected to dictionaries. The
returned state equals the input state: the query is read-only. -/
def list_user_images (db : DB) (user_id : Nat) : List ImageMeta × DB :=
  ((sortDesc (db.images.filter (fun r => r.user_id == user_id))).map toMeta, db)

/-! ### Flask handlers (`src/server.py`) -/

/-- Embedding of `_extract_token` (`src/server.py`, lines 33-46): parse an
`Authorization: Bearer <token>` header by splitting on single spaces and
checking for exactly two parts whose first lowercases to `"bearer"`. -/
def extractToken (auth_header : Option String) : Option String :=
  match auth_header with
  | none => none
  | some h =>
    let parts := pySplitChar ' ' h
    match parts with
    | [scheme, value] => if pyLower scheme == "bearer" then some value else none
    | _ => none

/-- Outcome of the `/auth/register` handler, one constructor per distinct
response it can produce. -/
inductive RegisterResp where
  | validationFailed
  | alreadyExists
  | created
  deriving Repr, DecidableEq

/-- Embedding of the `/auth/register` handler (`src/server.py`, lines
58-80): read `username` (stripped) and `password` from the JSON body with
`""` defaults, answer 400 when either is empty, else delegate to
`UserService.register_user`, mapping `False` to the 409 duplicate answer. -/
def serverRegister (db : DB) (username password : Option String) (now : Nat) :
    RegisterResp × DB :=
  let u := pyStrip (username.getD "")
  let p := password.getD ""
  if u == "" || p == "" then (.validationFailed, db)
  else
    let res := register_user db u p now
    if res.1 then (.created, res.2) else (.alreadyExists, res.2)

/-- Outcome of the `/users/images` POST handler, one constructor per
distinct response. -/
inductive UploadResp where
  | unauthorized
  | noImageField
  | saveFailed
  | saved (stored_path : List String)
  deriving Repr, DecidableEq

/-- Embedding of the `/users/images` POST handler `upload_user_image`
(`src/server.py`, lines 107-146): resolve the bearer token first and answer
401 without touching anything else when it does not resolve; then require
the `image` field; then delegate to `UserService.save_user_image` with the
resolved user's id and username, mapping a falsy result to 400. -/
def serverUpload (db : DB) (auth_header : Option String)
    (file : Option FileStorage) (now : Nat) : UploadResp × DB :=
  match get_user_by_token db (extractToken auth_header) with
  | none => (.unauthorized, db)
  | some user =>
    match file with
    | none => (.noImageField, db)
    | some fs =>
      let res := save_user_image db user.id user.username fs now
      match res.1 with
      | none => (.saveFailed, res.2)
      | some p => (.saved p, res.2)

/-! ### Trace semantics

Reachable states of the store, as produced by any interleaving-free
sequence of the four service operations (the Flask handlers only compose
these with pure checks, so every state a server run reaches is reachable
here as well). The event log records which user ids completed a successful
login, which is ghost instrumentation for the token-provenance claims. -/

/-- One service call, with the values the environment supplies (clock
readings, request payloads). -/
inductive Op where
  | register (username password : String) (now : Nat)
  | login (username password : String)
  | save (user_id : Nat) (username : String) (fs : FileStorage) (now : Nat)
  | listImages (user_id : Nat)
  deriving Repr

/-- State transition of one operation (responses discarded). -/
def applyOp (db : DB) : Op → DB
  | .register u p now => (register_user db u p now).2
  | .login u p => (login_user db u p).2
  | .save uid uname fs now => (save_user_image db uid uname fs now).2
  | .listImages uid => (list_user_images db uid).2

/-- Ghost event extraction: the id of the user a `login` operation logs in
successfully from state `db`, if any. It recomputes exactly the lookup and
password check of `login_user`. -/
def opLoginId (db : DB) : Op → Option Nat
  | .login u p =>
    match db.users.find? (fun r => r.username == normalizeUsername u) with
    | none => none
    | some row => if check_password_hash row.password_hash p then some row.id else none
  | _ => none

/-- Run a trace from the initialized store, collecting the ghost log of
successfully logged-in user ids. -/
def execLog (ops : List Op) : DB × List Nat :=
  ops.foldl (fun s op => (applyOp s.1 op, s.2 ++ (opLoginId s.1 op).toList))
    (initDB, [])

/-- The store state reached by a trace. -/
def exec (ops : List Op) : DB :=
  (execLog ops).1

/-- A store state is reachable when some trace produces it. -/
def Reachable (db : DB) : Prop :=
  ∃ ops : List Op, exec ops = db

/-- Structural invariant of the store: row ids stay below the
`AUTOINCREMENT` counter and are pairwise distinct, usernames are unique
(the `UNIQUE` constraint), and every stored `auth_token` was minted from an
already-consumed nonce of the uuid supply. -/
def StoreInv (db : DB) : Prop :=
  (∀ r ∈ db.users, r.id < db.nextUserId) ∧
  (db.users.map UserRow.id).Nodup ∧
  (db.users.map UserRow.username).Nodup ∧
  (∀ r ∈ db.users, ∀ t, r.auth_token = some t →
    ∃ n, n < db.nextNonce ∧ t = mkToken n)

/-- Ghost invariant tying tokens to the login event log: a user row holds a
token only if that user's id completed a successful login. -/
def TokenLogInv (db : DB) (log : List Nat) : Prop :=
  ∀ r ∈ db.users, r.auth_token ≠ none → r.id ∈ log

/-! ## Lemmas about the decimal rendering and the token supply -/

theorem digitChar_toNat {d : Nat} (hd : d < 10) : (digitChar d).toNat = 48 + d := by
  interval_cases d <;> decide

theorem decAux_ne_nil (fuel n : Nat) : decAux (fuel + 1) n ≠ [] := by
  unfold decAux
  split <;> simp

theorem decVal_append (l : List Char) (c : Char) :
    decVal (l ++ [c]) = decVal l * 10 + (c.toNat - 48) := by
  simp [decVal, List.foldl_append]

theorem decVal_decAux : ∀ fuel n, n < fuel → decVal (decAux fuel n) = n := by
  intro fuel
  induction fuel with
  | zero => intro n hn; omega
  | succ f ih =>
    intro n hn
    unfold decAux
    by_cases h10 : n < 10
    · simp [h10, decVal, digitChar_toNat h10]
    · have hn0 : 0 < n := by omega
      have hdiv : n / 10 < n := Nat.div_lt_self hn0 (by omega)
      have hf : n / 10 < f := by omega
      simp only [h10, if_false, decVal_append, ih _ hf]
      have hmod : n % 10 < 10 := Nat.mod_lt _ (by omega)
      rw [digitChar_toNat hmod]
      omega

theorem decRepr_injective {m n : Nat} (h : decRepr m = decRepr n) : m = n := by
  have hdata : decAux (m + 1) m = decAux (n + 1) n := congrArg String.data h
  have hm := decVal_decAux (m + 1) m (Nat.lt_succ_self m)
  have hn := decVal_decAux (n + 1) n (Nat.lt_succ_self n)
  rw [← hm, ← hn, hdata]

theorem decRepr_ne_empty (n : Nat) : decRepr n ≠ "" := by
  intro h
  exact decAux_ne_nil n n (congrArg String.data h)

theorem mkToken_injective {m n : Nat} (h : mkToken m = mkToken n) : m = n :=
  decRepr_injective h

theorem mkToken_ne_empty (n : Nat) : mkToken n ≠ "" :=
  decRepr_ne_empty n

theorem stored_filename_ne {now1 now2 : Nat} (h : now1 ≠ now2) (s : String) :
    decRepr now1 ++ "_" ++ s ≠ decRepr now2 ++ "_" ++ s := by
  intro heq
  apply h
  apply decRepr_injective
  apply String.ext
  have := congrArg String.data heq
  simpa using this

/-! ## Generic list lemmas -/

theorem find?_eq_some_of_mem_of_unique {α : Type} {p : α → Bool} {l : List α} {a : α}
    (ha : a ∈ l) (hpa : p a = true) (huniq : ∀ x ∈ l, p x = true → x = a) :
    l.find? p = some a := by
  induction l with
  | nil => cases ha
  | cons x xs ih =>
    by_cases hx : p x = true
    · have hxa : x = a := huniq x (List.mem_cons_self x xs) hx
      simp [List.find?, hxa, hpa]
    · have hax : a ≠ x := fun h => hx (h ▸ hpa)
      have ha' : a ∈ xs := by
        rcases List.mem_cons.mp ha with h | h
        · exact absurd h hax
        · exact h
      simp only [List.find?, Bool.not_eq_true] at hx ⊢
      rw [hx]
      exact ih ha' (fun x hx' hpx => huniq x (List.mem_cons_of_mem _ hx') hpx)

theorem isPrefixOf_append_self {α : Type} [BEq α] [LawfulBEq α] (l m : List α) :
    l.isPrefixOf (l ++ m) = true := by
  induction l with
  | nil => simp [List.isPrefixOf]
  | cons x xs ih => simp [List.isPrefixOf, ih]

theorem relpath_append (l m : List String) : relpath (l ++ m) l = m := by
  simp [relpath, isPrefixOf_append_self, List.drop_left]

theorem mem_fsAdd_self (entries : List (List String)) (e : List String) :
    e ∈ fsAdd entries e := by
  unfold fsAdd
  split
  · assumption
  · simp

theorem mem_fsAdd_of_mem {entries : List (List String)} {e : List String}
    (e' : List String) (h : e ∈ entries) : e ∈ fsAdd entries e' := by
  unfold fsAdd
  split
  · exact h
  · exact List.mem_append_left _ h

/-! ## Inversion lemmas for the service operations -/

theorem login_user_some {db : DB} {u p t : String} {db' : DB}
    (h : login_user db u p = (some t, db')) :
    ∃ row, db.users.find? (fun r => r.username == normalizeUsername u) = some row ∧
      check_password_hash row.password_hash p = true ∧
      t = mkToken db.nextNonce ∧
      db' = { db with
        users := db.users.map (fun r =>
          if r.id == row.id then { r with auth_token := some t } else r),
        nextNonce := db.nextNonce + 1 } := by
  cases hfind : db.users.find? (fun r => r.username == normalizeUsername u) with
  | none =>
    unfold login_user at h
    simp only [hfind] at h
    exact absurd (congrArg Prod.fst h) (by simp)
  | some row =>
    unfold login_user at h
    simp only [hfind] at h
    by_cases hchk : check_password_hash row.password_hash p = true
    · rw [if_pos hchk] at h
      injection h with h1 h2
      injection h1 with h1
      subst h1
      exact ⟨row, rfl, hchk, rfl, h2.symm⟩
    · rw [if_neg hchk] at h
      simp at h

theorem login_user_none {db : DB} {u p : String}
    (h : (login_user db u p).1 = none) : (login_user db u p).2 = db := by
  unfold login_user at h ⊢
  cases hfind : db.users.find? (fun r => r.username == normalizeUsername u) with
  | none => simp [hfind]
  | some row =>
    simp only [hfind] at h ⊢
    by_cases hchk : check_password_hash row.password_hash p = true
    · rw [if_pos hchk] at h
      simp at h
    · rw [if_neg hchk]

theorem register_user_empty (db : DB) (u p : String) (now : Nat)
    (h : normalizeUsername u = "") : register_user db u p now = (false, db) := by
  simp [register_user, h]

theorem register_user_dup (db : DB) (u p : String) (now : Nat)
    (hdup : ∃ r ∈ db.users, r.username = normalizeUsername u) :
    register_user db u p now = (false, db) := by
  obtain ⟨r, hr, hru⟩ := hdup
  have hany : db.users.any (fun x => x.username == normalizeUsername u) = true :=
    List.any_eq_true.mpr ⟨r, hr, by simp [hru]⟩
  simp [register_user, hany]

theorem register_user_fresh (db : DB) (u p : String) (now : Nat)
    (hne : (normalizeUsername u == "") = false)
    (habs : db.users.any (fun r => r.username == normalizeUsername u) = false) :
    register_user db u p now =
      (true,
        { db with
            users := db.users ++
              [{ id := db.nextUserId, username := normalizeUsername u,
                 password_hash := generate_password_hash p, auth_token := none,
                 created_at := now }],
            nextUserId := db.nextUserId + 1 }) := by
  simp [register_user, hne, habs]

theorem save_user_image_frame (db : DB) (uid : Nat) (uname : String)
    (fs : FileStorage) (now : Nat) :
    ((save_user_image db uid uname fs now).2).users = db.users ∧
    ((save_user_image db uid uname fs now).2).nextUserId = db.nextUserId ∧
    ((save_user_image db uid uname fs now).2).nextNonce = db.nextNonce := by
  unfold save_user_image
  split <;> exact ⟨rfl, rfl, rfl⟩

/-! ## Lemmas about the `ORDER BY uploaded_at DESC` sort -/

theorem insertDesc_perm (x : ImageRow) (l : List ImageRow) :
    List.Perm (insertDesc x l) (x :: l) := by
  induction l with
  | nil => simp [insertDesc]
  | cons y ys ih =>
    unfold insertDesc
    split
    · exact List.Perm.refl _
    · exact (ih.cons y).trans (List.Perm.swap x y ys)

theorem sortDesc_perm (l : List ImageRow) : List.Perm (sortDesc l) l := by
  induction l with
  | nil => simp [sortDesc]
  | cons x xs ih =>
    have hdef : sortDesc (x :: xs) = insertDesc x (sortDesc xs) := rfl
    rw [hdef]
    exact (insertDesc_perm x (sortDesc xs)).trans (ih.cons x)

theorem insertDesc_pairwise {x : ImageRow} {l : List ImageRow}
    (h : l.Pairwise (fun a b => b.uploaded_at ≤ a.uploaded_at)) :
    (insertDesc x l).Pairwise (fun a b => b.uploaded_at ≤ a.uploaded_at) := by
  induction l with
  | nil => simp [insertDesc]
  | cons y ys ih =>
    rw [List.pairwise_cons] at h
    obtain ⟨hy, hys⟩ := h
    unfold insertDesc
    split
    · rename_i hle
      rw [List.pairwise_cons]
      refine ⟨?_, List.pairwise_cons.mpr ⟨hy, hys⟩⟩
      intro z hz
      rcases List.mem_cons.mp hz with rfl | hz'
      · exact hle
      · exact le_trans (hy z hz') hle
    · rename_i hgt
      rw [List.pairwise_cons]
      refine ⟨?_, ih hys⟩
      intro z hz
      have hz' := (insertDesc_perm x ys).mem_iff.mp hz
      rcases List.mem_cons.mp hz' with rfl | hz''
      · omega
      · exact hy z hz''

theorem sortDesc_pairwise (l : List ImageRow) :
    (sortDesc l).Pairwise (fun a b => b.uploaded_at ≤ a.uploaded_at) := by
  induction l with
  | nil => simp [sortDesc]
  | cons x xs ih => exact insertDesc_pairwise ih

theorem sortDesc_triple {r1 r2 r3 : ImageRow}
    (h12 : r1.uploaded_at < r2.uploaded_at) (h23 : r2.uploaded_at < r3.uploaded_at) :
    sortDesc [r1, r2, r3] = [r3, r2, r1] := by
  have h2 : ¬ (r3.uploaded_at ≤ r2.uploaded_at) := by omega
  have h1 : ¬ (r3.uploaded_at ≤ r1.uploaded_at) := by omega
  have h0 : ¬ (r2.uploaded_at ≤ r1.uploaded_at) := by omega
  simp [sortDesc, insertDesc, h0, h1, h2]

/-! ## Preservation of the store invariants -/

theorem storeInv_initDB : StoreInv initDB := by
  refine ⟨?_, ?_, ?_, ?_⟩ <;> simp [initDB]

theorem storeInv_register (db : DB) (u p : String) (now : Nat) (h : StoreInv db) :
    StoreInv (register_user db u p now).2 := by
  obtain ⟨hid, hnodupId, hnodupName, hminted⟩ := h
  cases he : (normalizeUsername u == "") with
  | true =>
    have : register_user db u p now = (false, db) :=
      register_user_empty db u p now (by simpa using he)
    rw [this]
    exact ⟨hid, hnodupId, hnodupName, hminted⟩
  | false =>
    cases hany : db.users.any (fun r => r.username == normalizeUsername u) with
    | true =>
      have : register_user db u p now = (false, db) := by
        obtain ⟨r, hr, hru⟩ := List.any_eq_true.mp hany
        exact register_user_dup db u p now ⟨r, hr, by simpa using hru⟩
      rw [this]
      exact ⟨hid, hnodupId, hnodupName, hminted⟩
    | false =>
      rw [register_user_fresh db u p now he hany]
      refine ⟨?_, ?_, ?_, ?_⟩
      · intro r hr
        rcases List.mem_append.mp hr with hr' | hr'
        · exact Nat.lt_succ_of_lt (hid r hr')
        · simp only [List.mem_singleton] at hr'
          subst hr'
          exact Nat.lt_succ_self _
      · rw [List.map_append, List.nodup_append]
        refine ⟨hnodupId, by simp, ?_⟩
        intro x hx hx'
        simp only [List.map_cons, List.map_nil, List.mem_singleton] at hx'
        subst hx'
        obtain ⟨r, hr, hrid⟩ := List.mem_map.mp hx
        exact absurd hrid (Nat.ne_of_lt (hid r hr))
      · rw [List.map_append, List.nodup_append]
        refine ⟨hnodupName, by simp, ?_⟩
        intro x hx hx'
        simp only [List.map_cons, List.map_nil, List.mem_singleton] at hx'
        subst hx'
        obtain ⟨r, hr, hrname⟩ := List.mem_map.mp hx
        have := List.any_eq_false.mp hany r hr
        simp only [beq_iff_eq] at this
        exact this hrname
      · intro r hr t ht
        rcases List.mem_append.mp hr with hr' | hr'
        · exact hminted r hr' t ht
        · simp only [List.mem_singleton] at hr'
          subst hr'
          cases ht

theorem storeInv_login (db : DB) (u p : String) (h : StoreInv db) :
    StoreInv (login_user db u p).2 := by
  cases htok : (login_user db u p).1 with
  | none => rw [login_user_none htok]; exact h
  | some t =>
    have hres : login_user db u p = (some t, (login_user db u p).2) := by
      rw [← htok]
    obtain ⟨row, hfind, hchk, ht, hdb'⟩ := login_user_some hres
    rw [hdb']
    obtain ⟨hid, hnodupId, hnodupName, hminted⟩ := h
    have hpreserve : ∀ r : UserRow,
        ((fun r => if r.id == row.id then { r with auth_token := some t } else r) r).id
          = r.id ∧
        ((fun r => if r.id == row.id then { r with auth_token := some t } else r) r).username
          = r.username := by
      intro r
      constructor
      · show (if r.id == row.id then { r with auth_token := some t } else r).id = r.id
        split <;> rfl
      · show (if r.id == row.id then { r with auth_token := some t } else r).username
          = r.username
        split <;> rfl
    refine ⟨?_, ?_, ?_, ?_⟩
    · intro r hr
      obtain ⟨r0, hr0, hr0eq⟩ := List.mem_map.mp hr
      rw [← hr0eq, (hpreserve r0).1]
      exact hid r0 hr0
    · rw [List.map_map]
      have : (db.users.map (UserRow.id ∘ fun r =>
          if r.id == row.id then { r with auth_token := some t } else r))
          = db.users.map UserRow.id :=
        List.map_congr_left (fun r _ => (hpreserve r).1)
      rw [this]
      exact hnodupId
    · rw [List.map_map]
      have : (db.users.map (UserRow.username ∘ fun r =>
          if r.id == row.id then { r with auth_token := some t } else r))
          = db.users.map UserRow.username :=
        List.map_congr_left (fun r _ => (hpreserve r).2)
      rw [this]
      exact hnodupName
    · intro r hr t' ht'
      obtain ⟨r0, hr0, hr0eq⟩ := List.mem_map.mp hr
      by_cases hcase : (r0.id == row.id) = true
      · rw [← hr0eq] at ht'
        simp only [hcase, if_true] at ht'
        injection ht' with ht''
        exact ⟨db.nextNonce, Nat.lt_succ_self _, by rw [← ht'', ht]⟩
      · rw [← hr0eq] at ht'
        rw [if_neg hcase] at ht'
        obtain ⟨n, hn, hmk⟩ := hminted r0 hr0 t' ht'
        exact ⟨n, Nat.lt_succ_of_lt hn, hmk⟩

theorem storeInv_applyOp (db : DB) (op : Op) (h : StoreInv db) :
    StoreInv (applyOp db op) := by
  cases op with
  | register u p now => exact storeInv_register db u p now h
  | login u p => exact storeInv_login db u p h
  | save uid uname fs now =>
    obtain ⟨husers, hnextId, hnonce⟩ := save_user_image_frame db uid uname fs now
    obtain ⟨h1, h2, h3, h4⟩ := h
    unfold applyOp
    rw [StoreInv, husers, hnextId, hnonce]
    exact ⟨h1, h2, h3, h4⟩
  | listImages uid => exact h

theorem tokenLogInv_applyOp (db : DB) (log : List Nat) (op : Op)
    (h : TokenLogInv db log) :
    TokenLogInv (applyOp db op) (log ++ (opLoginId db op).toList) := by
  cases op with
  | register u p now =>
    intro r hr htok
    simp only [applyOp] at hr
    cases he : (normalizeUsername u == "") with
    | true =>
      rw [register_user_empty db u p now (by simpa using he)] at hr
      exact List.mem_append_left _ (h r hr htok)
    | false =>
      cases hany : db.users.any (fun x => x.username == normalizeUsername u) with
      | true =>
        have hdup : register_user db u p now = (false, db) := by
          obtain ⟨r', hr', hru'⟩ := List.any_eq_true.mp hany
          exact register_user_dup db u p now ⟨r', hr', by simpa using hru'⟩
        rw [hdup] at hr
        exact List.mem_append_left _ (h r hr htok)
      | false =>
        rw [register_user_fresh db u p now he hany] at hr
        simp only at hr
        rcases List.mem_append.mp hr with hr' | hr'
        · exact List.mem_append_left _ (h r hr' htok)
        · simp only [List.mem_singleton] at hr'
          subst hr'
          exact absurd rfl htok
  | login u p =>
    intro r hr htok
    simp only [applyOp] at hr
    cases htokres : (login_user db u p).1 with
    | none =>
      rw [login_user_none htokres] at hr
      cases hfind : db.users.find? (fun x => x.username == normalizeUsername u) with
      | none =>
        simp only [opLoginId, hfind]
        exact List.mem_append_left _ (h r hr htok)
      | some row =>
        by_cases hchk : check_password_hash row.password_hash p = true
        · exfalso
          unfold login_user at htokres
          simp only [hfind, if_pos hchk] at htokres
          exact Option.noConfusion htokres
        · simp only [opLoginId, hfind, if_neg hchk]
          exact List.mem_append_left _ (h r hr htok)
    | some t =>
      have hres : login_user db u p = (some t, (login_user db u p).2) := by
        rw [← htokres]
      obtain ⟨row, hfind, hchk, ht, hdb'⟩ := login_user_some hres
      have hlog : opLoginId db (Op.login u p) = some row.id := by
        simp only [opLoginId, hfind, if_pos hchk]
      rw [hdb'] at hr
      simp only at hr
      obtain ⟨r0, hr0, hr0eq⟩ := List.mem_map.mp hr
      by_cases hcase : (r0.id == row.id) = true
      · rw [hlog]
        have : r.id = row.id := by
          rw [← hr0eq]
          simp only [hcase, if_true]
          exact beq_iff_eq.mp hcase
        rw [this]
        simp
      · rw [← hr0eq] at htok ⊢
        simp only [hcase, if_neg] at htok ⊢
        exact List.mem_append_left _ (h r0 hr0 htok)
  | save uid uname fs now =>
    intro r hr htok
    simp only [applyOp] at hr
    rw [(save_user_image_frame db uid uname fs now).1] at hr
    exact List.mem_append_left _ (h r hr htok)
  | listImages uid =>
    intro r hr htok
    exact List.mem_append_left _ (h r hr htok)

theorem invariant_foldl (ops : List Op) :
    ∀ s : DB × List Nat, StoreInv s.1 → TokenLogInv s.1 s.2 →
      StoreInv (ops.foldl
        (fun s op => (applyOp s.1 op, s.2 ++ (opLoginId s.1 op).toList)) s).1 ∧
      TokenLogInv
        (ops.foldl
          (fun s op => (applyOp s.1 op, s.2 ++ (opLoginId s.1 op).toList)) s).1
        (ops.foldl
          (fun s op => (applyOp s.1 op, s.2 ++ (opLoginId s.1 op).toList)) s).2 := by
  induction ops with
  | nil => intro s h1 h2; exact ⟨h1, h2⟩
  | cons op ops ih =>
    intro s h1 h2
    exact ih (applyOp s.1 op, s.2 ++ (opLoginId s.1 op).toList)
      (storeInv_applyOp s.1 op h1) (tokenLogInv_applyOp s.1 s.2 op h2)

theorem storeInv_execLog (ops : List Op) :
    StoreInv (execLog ops).1 ∧ TokenLogInv (execLog ops).1 (execLog ops).2 :=
  invariant_foldl ops (initDB, []) storeInv_initDB (by intro r hr _; cases hr)

theorem reachable_storeInv {db : DB} (h : Reachable db) : StoreInv db := by
  obtain ⟨ops, hops⟩ := h
  rw [← hops]
  exact (storeInv_execLog ops).1

theorem save_user_image_success (db : DB) (uid : Nat) (uname : String)
    (fs : FileStorage) (now : Nat) (hne : (fs.filename == "") = false) :
    save_user_image db uid uname fs now =
      (some (["uploads", "user_uploads", uname,
          decRepr now ++ "_" ++ secure_filename fs.filename]),
        { db with
            fsEntries := fsAdd (fsAdd db.fsEntries (userUploadRoot ++ [uname]))
              (userUploadRoot ++ [uname] ++
                [decRepr now ++ "_" ++ secure_filename fs.filename]),
            images := db.images ++
              [{ id := db.nextImageId, user_id := uid,
                 original_filename := secure_filename fs.filename,
                 stored_path := ["uploads", "user_uploads", uname,
                   decRepr now ++ "_" ++ secure_filename fs.filename],
                 uploaded_at := now }],
            nextImageId := db.nextImageId + 1 }) := by
  have hrel : relpath (userUploadRoot ++ [uname] ++
      [decRepr now ++ "_" ++ secure_filename fs.filename]) repoRoot =
      ["uploads", "user_uploads", uname,
        decRepr now ++ "_" ++ secure_filename fs.filename] := by
    have hshape : userUploadRoot ++ [uname] ++
        [decRepr now ++ "_" ++ secure_filename fs.filename] =
        repoRoot ++ (["uploads", "user_uploads"] ++ [uname] ++
          [decRepr now ++ "_" ++ secure_filename fs.filename]) := by
      simp [userUploadRoot]
    rw [hshape, relpath_append]
    rfl
  unfold save_user_image
  rw [if_neg (by simp [fileStorageBool, hne])]
  simp only [hrel]

/-! ## The claims -/

/-- C2: registering two usernames with the same non-empty normalization into
a store not yet holding it: the first `register_user` succeeds, the second
returns the duplicate failure and leaves the store untouched, and the store
then holds exactly one row for the normalized username. The duplicate is
detected by the store-level insert itself (the `UNIQUE` constraint embedded
in `register_user`), not by a separate pre-check. -/
theorem c2_register_same_username_twice (db : DB) (u1 u2 p1 p2 : String)
    (now1 now2 : Nat)
    (hn : normalizeUsername u2 = normalizeUsername u1)
    (hne : normalizeUsername u1 ≠ "")
    (habsent : ∀ r ∈ db.users, r.username ≠ normalizeUsername u1) :
    (register_user db u1 p1 now1).1 = true ∧
    register_user (register_user db u1 p1 now1).2 u2 p2 now2 =
      (false, (register_user db u1 p1 now1).2) ∧
    (((register_user db u1 p1 now1).2).users.filter
      (fun r => r.username == normalizeUsername u1)).length = 1 := by
  have hne' : (normalizeUsername u1 == "") = false := beq_eq_false_iff_ne.mpr hne
  have hany : db.users.any (fun r => r.username == normalizeUsername u1) = false := by
    rw [List.any_eq_false]
    intro r hr
    simp only [beq_iff_eq]
    exact habsent r hr
  rw [register_user_fresh db u1 p1 now1 hne' hany]
  refine ⟨rfl, ?_, ?_⟩
  · apply register_user_dup
    refine ⟨{ id := db.nextUserId, username := normalizeUsername u1,
              password_hash := generate_password_hash p1, auth_token := none,
              created_at := now1 }, ?_, ?_⟩
    · simp
    · rw [hn]
  · simp only [List.filter_append]
    have hfil : db.users.filter (fun r => r.username == normalizeUsername u1) = [] := by
      rw [List.filter_eq_nil_iff]
      intro r hr
      simp only [beq_iff_eq]
      exact habsent r hr
    rw [hfil]
    simp

/-- C2 witness: concrete duplicate registration of `"Demo"` then `"demo"`. -/
theorem c2_register_same_username_twice_witness :
    normalizeUsername "demo" = normalizeUsername "Demo" ∧
    normalizeUsername "Demo" ≠ "" ∧
    (∀ r ∈ initDB.users, r.username ≠ normalizeUsername "Demo") ∧
    ((register_user initDB "Demo" "pw1" 0).1 = true ∧
      register_user (register_user initDB "Demo" "pw1" 0).2 "demo" "pw2" 1 =
        (false, (register_user initDB "Demo" "pw1" 0).2) ∧
      (((register_user initDB "Demo" "pw1" 0).2).users.filter
        (fun r => r.username == normalizeUsername "Demo")).length = 1) :=
  ⟨by decide, by decide, by decide,
    c2_register_same_username_twice initDB "Demo" "demo" "pw1" "pw2" 0 1
      (by decide) (by decide) (by decide)⟩

/-- C3 counterexample: `UserService.register_user` called directly with a
non-empty username and an empty password does touch storage: it returns
`True`, inserts a user row, and persists the hash of the empty password,
contradicting the claim that the credential store rejects an empty password
without touching storage. -/
theorem c3_empty_password_counterexample :
    (register_user initDB "x" "" 0).1 = true ∧
    ((register_user initDB "x" "" 0).2).users ≠ [] ∧
    ∃ r ∈ ((register_user initDB "x" "" 0).2).users,
      r.password_hash = generate_password_hash "" := by
  decide

/-- C3 (amended): the store-level `register_user` rejects only an empty
normalized username without touching storage; the empty-password check
lives in the HTTP register handler, which rejects before calling the store;
given a non-empty fresh username the store inserts a row whatever the
password is, persisting its hash (so the empty password is not rejected at
store level). -/
theorem c3_empty_input_rejection :
    (∀ (db : DB) (u p : String) (now : Nat), normalizeUsername u = "" →
      register_user db u p now = (false, db)) ∧
    (∀ (db : DB) (u p : Option String) (now : Nat), p.getD "" = "" →
      serverRegister db u p now = (RegisterResp.validationFailed, db)) ∧
    (∀ (db : DB) (u p : String) (now : Nat), normalizeUsername u ≠ "" →
      (∀ r ∈ db.users, r.username ≠ normalizeUsername u) →
      (register_user db u p now).1 = true ∧
      ∃ r ∈ ((register_user db u p now).2).users,
        r.password_hash = generate_password_hash p) := by
  refine ⟨fun db u p now h => register_user_empty db u p now h, ?_, ?_⟩
  · intro db u p now hp
    unfold serverRegister
    rw [hp]
    simp
  · intro db u p now hne habs
    have hne' : (normalizeUsername u == "") = false := beq_eq_false_iff_ne.mpr hne
    have hany : db.users.any (fun r => r.username == normalizeUsername u) = false := by
      rw [List.any_eq_false]
      intro r hr
      simp only [beq_iff_eq]
      exact habs r hr
    rw [register_user_fresh db u p now hne' hany]
    exact ⟨rfl,
      ⟨{ id := db.nextUserId, username := normalizeUsername u,
         password_hash := generate_password_hash p, auth_token := none,
         created_at := now }, by simp, rfl⟩⟩

/-- C3 (amended) witness: the HTTP handler rejects the empty password
without state change, and the store-level register keeps no password
check. -/
theorem c3_empty_input_rejection_witness :
    normalizeUsername "   " = "" ∧
    register_user initDB "   " "pw" 0 = (false, initDB) ∧
    (some "" : Option String).getD "" = "" ∧
    serverRegister initDB (some "demo") (some "") 0 =
      (RegisterResp.validationFailed, initDB) :=
  ⟨by decide,
    c3_empty_input_rejection.1 initDB "   " "pw" 0 (by decide),
    by decide,
    c3_empty_input_rejection.2.1 initDB (some "demo") (some "") 0 (by decide)⟩

/-- C4: the register facade's validation-failure response and its
duplicate-username response are distinct values: empty inputs always
produce `validationFailed`, a duplicate normalized username with non-empty
inputs always produces `alreadyExists`, and the two constructors differ. -/
theorem c4_register_surfaces_already_exists (db : DB)
    (username password : Option String) (now : Nat) :
    (pyStrip (username.getD "") = "" ∨ password.getD "" = "" →
      serverRegister db username password now = (RegisterResp.validationFailed, db)) ∧
    ((pyStrip (username.getD "") ≠ "" → password.getD "" ≠ "" →
      (∃ r ∈ db.users,
        r.username = normalizeUsername (pyStrip (username.getD ""))) →
      (serverRegister db username password now).1 = RegisterResp.alreadyExists)) ∧
    RegisterResp.validationFailed ≠ RegisterResp.alreadyExists := by
  refine ⟨?_, ?_, by decide⟩
  · intro h
    unfold serverRegister
    rcases h with h | h <;> rw [h] <;> simp
  · intro hu hp hdup
    have hu' : (pyStrip (username.getD "") == "") = false := beq_eq_false_iff_ne.mpr hu
    have hp' : (password.getD "" == "") = false := beq_eq_false_iff_ne.mpr hp
    unfold serverRegister
    simp only [hu', hp',
      register_user_dup db (pyStrip (username.getD "")) (password.getD "") now hdup]
    simp

/-- C4 witness: a concrete duplicate registration through the facade
answers `alreadyExists`, while the empty-input case answers
`validationFailed`. -/
theorem c4_register_surfaces_already_exists_witness :
    (pyStrip ((some "demo" : Option String).getD "") = "" ∨
        (some "" : Option String).getD "" = "" →
      serverRegister (exec [Op.register "demo" "pw" 0]) (some "demo") (some "") 1 =
        (RegisterResp.validationFailed, exec [Op.register "demo" "pw" 0])) ∧
    (pyStrip ((some "demo" : Option String).getD "") ≠ "" ∧
      (some "x" : Option String).getD "" ≠ "" ∧
      (serverRegister (exec [Op.register "demo" "pw" 0]) (some "demo") (some "x") 1).1 =
        RegisterResp.alreadyExists) :=
  ⟨(c4_register_surfaces_already_exists (exec [Op.register "demo" "pw" 0])
      (some "demo") (some "") 1).1,
    by decide, by decide,
    (c4_register_surfaces_already_exists (exec [Op.register "demo" "pw" 0])
      (some "demo") (some "x") 1).2.1 (by decide) (by decide)
      ⟨{ id := 1, username := "demo", password_hash := generate_password_hash "pw",
         auth_token := none, created_at := 0 }, by decide, by decide⟩⟩

/-- C5 counterexample: `save_user_image` with a non-empty filename and
empty bytes is not rejected: it returns a stored path, inserts an image
record, and creates file-system entries, contradicting the claim that
empty bytes are rejected with no record and no file-system entry. -/
theorem c5_empty_bytes_counterexample :
    (save_user_image initDB 7 "alex" { filename := "a.png", content := [] } 3).1 =
      some ["uploads", "user_uploads", "alex", "3_a.png"] ∧
    ((save_user_image initDB 7 "alex"
        { filename := "a.png", content := [] } 3).2).images ≠ [] ∧
    ((save_user_image initDB 7 "alex"
        { filename := "a.png", content := [] } 3).2).fsEntries ≠ [] := by
  decide

/-- C5 (amended): `save_user_image` rejects exactly the empty filename
(werkzeug `FileStorage` truthiness is also filename-based): it returns
`None` and leaves the store and the file system untouched; empty bytes
alone are not rejected. -/
theorem c5_save_rejects_empty_filename (db : DB) (uid : Nat) (uname : String)
    (fs : FileStorage) (now : Nat) (h : fs.filename = "") :
    save_user_image db uid uname fs now = (none, db) := by
  unfold save_user_image
  rw [if_pos (by simp [fileStorageBool, h])]

/-- C5 (amended) witness: the concrete empty-filename upload is rejected
with no state change. -/
theorem c5_save_rejects_empty_filename_witness :
    (({ filename := "", content := [1, 2] } : FileStorage)).filename = "" ∧
    save_user_image initDB 7 "alex" { filename := "", content := [1, 2] } 3 =
      (none, initDB) :=
  ⟨rfl, c5_save_rejects_empty_filename initDB 7 "alex"
    { filename := "", content := [1, 2] } 3 rfl⟩

/-- C6: when the bearer token does not resolve to a user, the upload
handler answers `unauthorized` and returns the state unchanged — no asset
save, no image record, no file-system entry. -/
theorem c6_upload_unauthorized_no_side_effects (db : DB)
    (auth_header : Option String) (file : Option FileStorage) (now : Nat)
    (h : get_user_by_token db (extractToken auth_header) = none) :
    serverUpload db auth_header file now = (UploadResp.unauthorized, db) := by
  unfold serverUpload
  rw [h]

/-- C6 witness: a garbage bearer token on the initial store is rejected
with zero side effects. -/
theorem c6_upload_unauthorized_witness :
    get_user_by_token initDB (extractToken (some "Bearer deadbeef")) = none ∧
    serverUpload initDB (some "Bearer deadbeef")
      (some { filename := "a.png", content := [1] }) 5 =
      (UploadResp.unauthorized, initDB) :=
  ⟨by decide,
    c6_upload_unauthorized_no_side_effects initDB (some "Bearer deadbeef")
      (some { filename := "a.png", content := [1] }) 5 (by decide)⟩

/-- C9: a login failing because the username does not exist and a login
failing because the password is wrong for an existing username produce the
identical result (`None`) and leave their stores unchanged, so the caller
cannot distinguish the two failure causes from the result. -/
theorem c9_login_failures_indistinguishable (db1 db2 : DB) (u1 p1 u2 p2 : String)
    (h1 : ∀ r ∈ db1.users, r.username ≠ normalizeUsername u1)
    (h2 : ∃ row, db2.users.find? (fun r => r.username == normalizeUsername u2) =
        some row ∧ check_password_hash row.password_hash p2 = false) :
    login_user db1 u1 p1 = (none, db1) ∧ login_user db2 u2 p2 = (none, db2) ∧
    (login_user db1 u1 p1).1 = (login_user db2 u2 p2).1 := by
  have hfind1 : db1.users.find? (fun r => r.username == normalizeUsername u1) = none := by
    rw [List.find?_eq_none]
    intro r hr
    simp only [beq_iff_eq]
    exact h1 r hr
  obtain ⟨row, hfind2, hchk⟩ := h2
  have e1 : login_user db1 u1 p1 = (none, db1) := by
    unfold login_user
    simp [hfind1]
  have e2 : login_user db2 u2 p2 = (none, db2) := by
    unfold login_user
    simp [hfind2, hchk]
  exact ⟨e1, e2, by rw [e1, e2]⟩

/-- C9 witness: unknown user `"ghost"` versus wrong password for the
registered `"demo"` — both logins answer `None`. -/
theorem c9_login_failures_indistinguishable_witness :
    (∀ r ∈ initDB.users, r.username ≠ normalizeUsername "ghost") ∧
    ((exec [Op.register "demo" "secret123" 0]).users.find?
        (fun r => r.username == normalizeUsername "demo") =
      some { id := 1, username := "demo",
             password_hash := generate_password_hash "secret123",
             auth_token := none, created_at := 0 } ∧
      check_password_hash (generate_password_hash "secret123") "wrong" = false) ∧
    (login_user initDB "ghost" "pw" = (none, initDB) ∧
      login_user (exec [Op.register "demo" "secret123" 0]) "demo" "wrong" =
        (none, exec [Op.register "demo" "secret123" 0]) ∧
      (login_user initDB "ghost" "pw").1 =
        (login_user (exec [Op.register "demo" "secret123" 0]) "demo" "wrong").1) :=
  ⟨by decide, ⟨by decide, by decide⟩,
    c9_login_failures_indistinguishable initDB
      (exec [Op.register "demo" "secret123" 0]) "ghost" "pw" "demo" "wrong"
      (by decide)
      ⟨{ id := 1, username := "demo",
         password_hash := generate_password_hash "secret123",
         auth_token := none, created_at := 0 }, by decide, by decide⟩⟩

/-- C7: `list_user_images` mutates no state, returns exactly the user's
image records (a permutation of the rows selected by `user_id`, projected
to their metadata), sorted most-recently-uploaded first; an empty selection
yields the empty list (not an error); and three records with strictly
increasing timestamps t1 < t2 < t3 come back as [t3, t2, t1]. -/
theorem c7_list_images_recency_order (db : DB) (uid : Nat) :
    (list_user_images db uid).2 = db ∧
    List.Perm ((list_user_images db uid).1)
      ((db.images.filter (fun r => r.user_id == uid)).map toMeta) ∧
    ((list_user_images db uid).1).Pairwise
      (fun a b => b.uploaded_at ≤ a.uploaded_at) ∧
    (db.images.filter (fun r => r.user_id == uid) = [] →
      (list_user_images db uid).1 = []) ∧
    (∀ r1 r2 r3, db.images.filter (fun r => r.user_id == uid) = [r1, r2, r3] →
      r1.uploaded_at < r2.uploaded_at → r2.uploaded_at < r3.uploaded_at →
      (list_user_images db uid).1 = [toMeta r3, toMeta r2, toMeta r1]) := by
  refine ⟨rfl, ?_, ?_, ?_, ?_⟩
  · exact List.Perm.map toMeta
      (sortDesc_perm (db.images.filter (fun r => r.user_id == uid)))
  · show ((sortDesc (db.images.filter (fun r => r.user_id == uid))).map toMeta).Pairwise
      (fun a b => b.uploaded_at ≤ a.uploaded_at)
    rw [List.pairwise_map]
    exact sortDesc_pairwise _
  · intro hnil
    show (sortDesc (db.images.filter (fun r => r.user_id == uid))).map toMeta = []
    rw [hnil]
    rfl
  · intro r1 r2 r3 hfil h12 h23
    show (sortDesc (db.images.filter (fun r => r.user_id == uid))).map toMeta = _
    rw [hfil, sortDesc_triple h12 h23]
    rfl

/-- C7 witness: three concrete uploads at timestamps 1 < 2 < 3 are listed
back as [3, 2, 1], and a user with no images gets the empty list. -/
theorem c7_list_images_recency_order_witness :
    (let db3 : DB :=
      { users := [], nextUserId := 1, nextNonce := 0, nextImageId := 4,
        fsEntries := [],
        images :=
          [{ id := 1, user_id := 7, original_filename := "a.png",
             stored_path := ["pa"], uploaded_at := 1 },
           { id := 2, user_id := 7, original_filename := "b.png",
             stored_path := ["pb"], uploaded_at := 2 },
           { id := 3, user_id := 7, original_filename := "c.png",
             stored_path := ["pc"], uploaded_at := 3 }] }
    db3.images.filter (fun r => r.user_id == 7) =
        [{ id := 1, user_id := 7, original_filename := "a.png",
           stored_path := ["pa"], uploaded_at := 1 },
         { id := 2, user_id := 7, original_filename := "b.png",
           stored_path := ["pb"], uploaded_at := 2 },
         { id := 3, user_id := 7, original_filename := "c.png",
           stored_path := ["pc"], uploaded_at := 3 }] ∧
      (list_user_images db3 7).1 =
        [{ original_filename := "c.png", stored_path := ["pc"], uploaded_at := 3 },
         { original_filename := "b.png", stored_path := ["pb"], uploaded_at := 2 },
         { original_filename := "a.png", stored_path := ["pa"], uploaded_at := 1 }] ∧
      db3.images.filter (fun r => r.user_id == 9) = [] ∧
      (list_user_images db3 9).1 = []) := by
  intro db3
  refine ⟨by decide, ?_, by decide, ?_⟩
  · exact (c7_list_images_recency_order db3 7).2.2.2.2
      { id := 1, user_id := 7, original_filename := "a.png",
        stored_path := ["pa"], uploaded_at := 1 }
      { id := 2, user_id := 7, original_filename := "b.png",
        stored_path := ["pb"], uploaded_at := 2 }
      { id := 3, user_id := 7, original_filename := "c.png",
        stored_path := ["pc"], uploaded_at := 3 }
      (by decide) (by decide) (by decide)
  · exact (c7_list_images_recency_order db3 9).2.2.2.1 (by decide)

/-- C8: two successful saves for the same user with identical original
filenames at distinct timestamps produce two distinct stored paths — each
final filename being the upload's timestamp prefixed to the sanitized
original filename — append two distinct image records (the earlier record
untouched), and keep both written files in the file system. -/
theorem c8_duplicate_filenames_no_overwrite (db : DB) (uid : Nat)
    (uname : String) (fs1 fs2 : FileStorage) (now1 now2 : Nat)
    (hsame : fs2.filename = fs1.filename) (hne : fs1.filename ≠ "")
    (hts : now1 ≠ now2) :
    (save_user_image db uid uname fs1 now1).1 =
      some ["uploads", "user_uploads", uname,
        decRepr now1 ++ "_" ++ secure_filename fs1.filename] ∧
    (save_user_image (save_user_image db uid uname fs1 now1).2
        uid uname fs2 now2).1 =
      some ["uploads", "user_uploads", uname,
        decRepr now2 ++ "_" ++ secure_filename fs1.filename] ∧
    (["uploads", "user_uploads", uname,
        decRepr now1 ++ "_" ++ secure_filename fs1.filename] : List String) ≠
      ["uploads", "user_uploads", uname,
        decRepr now2 ++ "_" ++ secure_filename fs1.filename] ∧
    (∃ rec1 rec2 : ImageRow,
      ((save_user_image (save_user_image db uid uname fs1 now1).2
          uid uname fs2 now2).2).images = db.images ++ [rec1, rec2] ∧
      rec1 ≠ rec2 ∧
      rec1.stored_path = ["uploads", "user_uploads", uname,
        decRepr now1 ++ "_" ++ secure_filename fs1.filename] ∧
      rec2.stored_path = ["uploads", "user_uploads", uname,
        decRepr now2 ++ "_" ++ secure_filename fs1.filename]) ∧
    userUploadRoot ++ [uname] ++
        [decRepr now1 ++ "_" ++ secure_filename fs1.filename] ∈
      ((save_user_image (save_user_image db uid uname fs1 now1).2
          uid uname fs2 now2).2).fsEntries ∧
    userUploadRoot ++ [uname] ++
        [decRepr now2 ++ "_" ++ secure_filename fs1.filename] ∈
      ((save_user_image (save_user_image db uid uname fs1 now1).2
          uid uname fs2 now2).2).fsEntries := by
  have hne1 : (fs1.filename == "") = false := beq_eq_false_iff_ne.mpr hne
  have hne2 : (fs2.filename == "") = false := by rw [hsame]; exact hne1
  have e1 := save_user_image_success db uid uname fs1 now1 hne1
  have e2 := save_user_image_success
    (save_user_image db uid uname fs1 now1).2 uid uname fs2 now2 hne2
  rw [e1] at e2
  rw [hsame] at e2
  have hpathne : (["uploads", "user_uploads", uname,
      decRepr now1 ++ "_" ++ secure_filename fs1.filename] : List String) ≠
      ["uploads", "user_uploads", uname,
        decRepr now2 ++ "_" ++ secure_filename fs1.filename] := by
    intro hcontra
    have htail := List.tail_eq_of_cons_eq
      (List.tail_eq_of_cons_eq (List.tail_eq_of_cons_eq hcontra))
    have hhead := List.head_eq_of_cons_eq htail
    exact stored_filename_ne hts (secure_filename fs1.filename) hhead
  rw [e1, e2]
  refine ⟨rfl, rfl, hpathne, ?_, ?_, ?_⟩
  · refine ⟨{ id := db.nextImageId, user_id := uid,
              original_filename := secure_filename fs1.filename,
              stored_path := ["uploads", "user_uploads", uname,
                decRepr now1 ++ "_" ++ secure_filename fs1.filename],
              uploaded_at := now1 },
      { id := db.nextImageId + 1, user_id := uid,
        original_filename := secure_filename fs1.filename,
        stored_path := ["uploads", "user_uploads", uname,
          decRepr now2 ++ "_" ++ secure_filename fs1.filename],
        uploaded_at := now2 }, ?_, ?_, rfl, rfl⟩
    · simp
    · intro hcontra
      have := congrArg ImageRow.uploaded_at hcontra
      exact hts this
  · apply mem_fsAdd_of_mem
    apply mem_fsAdd_of_mem
    exact mem_fsAdd_self _ _
  · exact mem_fsAdd_self _ _

/-- C8 witness: two concrete uploads of `a.png` at timestamps 3 and 4 are
stored under distinct timestamp-prefixed names with both records kept. -/
theorem c8_duplicate_filenames_no_overwrite_witness :
    ({ filename := "a.png", content := [2] } : FileStorage).filename =
      ({ filename := "a.png", content := [1] } : FileStorage).filename ∧
    ({ filename := "a.png", content := [1] } : FileStorage).filename ≠ "" ∧
    (3 : Nat) ≠ 4 ∧
    ((save_user_image initDB 7 "alex" { filename := "a.png", content := [1] } 3).1 =
      some ["uploads", "user_uploads", "alex",
        decRepr 3 ++ "_" ++ secure_filename "a.png"] ∧
    (save_user_image
        (save_user_image initDB 7 "alex" { filename := "a.png", content := [1] } 3).2
        7 "alex" { filename := "a.png", content := [2] } 4).1 =
      some ["uploads", "user_uploads", "alex",
        decRepr 4 ++ "_" ++ secure_filename "a.png"] ∧
    (["uploads", "user_uploads", "alex",
        decRepr 3 ++ "_" ++ secure_filename "a.png"] : List String) ≠
      ["uploads", "user_uploads", "alex",
        decRepr 4 ++ "_" ++ secure_filename "a.png"] ∧
    (∃ rec1 rec2 : ImageRow,
      ((save_user_image
          (save_user_image initDB 7 "alex" { filename := "a.png", content := [1] } 3).2
          7 "alex" { filename := "a.png", content := [2] } 4).2).images =
        initDB.images ++ [rec1, rec2] ∧
      rec1 ≠ rec2 ∧
      rec1.stored_path = ["uploads", "user_uploads", "alex",
        decRepr 3 ++ "_" ++ secure_filename "a.png"] ∧
      rec2.stored_path = ["uploads", "user_uploads", "alex",
        decRepr 4 ++ "_" ++ secure_filename "a.png"]) ∧
    userUploadRoot ++ ["alex"] ++ [decRepr 3 ++ "_" ++ secure_filename "a.png"] ∈
      ((save_user_image
          (save_user_image initDB 7 "alex" { filename := "a.png", content := [1] } 3).2
          7 "alex" { filename := "a.png", content := [2] } 4).2).fsEntries ∧
    userUploadRoot ++ ["alex"] ++ [decRepr 4 ++ "_" ++ secure_filename "a.png"] ∈
      ((save_user_image
          (save_user_image initDB 7 "alex" { filename := "a.png", content := [1] } 3).2
          7 "alex" { filename := "a.png", content := [2] } 4).2).fsEntries) :=
  ⟨rfl, by decide, by decide,
    c8_duplicate_filenames_no_overwrite initDB 7 "alex"
      { filename := "a.png", content := [1] } { filename := "a.png", content := [2] }
      3 4 rfl (by decide) (by decide)⟩

/-- C1: in any reachable store state, two sequential successful logins for
a user return two different tokens; immediately after the second login the
first token no longer resolves (`Unauthorized`), while the second token
resolves to exactly that user's identity. -/
theorem c1_second_login_invalidates_first (db : DB) (u p t1 t2 : String)
    (db1 db2 : DB) (hreach : Reachable db)
    (h1 : login_user db u p = (some t1, db1))
    (h2 : login_user db1 u p = (some t2, db2)) :
    t1 ≠ t2 ∧
    get_user_by_token db2 (some t1) = none ∧
    ∃ row, db.users.find? (fun r => r.username == normalizeUsername u) = some row ∧
      get_user_by_token db2 (some t2) =
        some { id := row.id, username := row.username } := by
  obtain ⟨hid, hnodupId, hnodupName, hminted⟩ := reachable_storeInv hreach
  obtain ⟨row, hfind, hchk, ht1, hdb1⟩ := login_user_some h1
  obtain ⟨row1, hfind1, hchk1, ht2, hdb2⟩ := login_user_some h2
  subst hdb1
  have hrowmem : row ∈ db.users := List.mem_of_find?_eq_some hfind
  have ht2' : t2 = mkToken (db.nextNonce + 1) := ht2
  have hfind1' : (db.users.map (fun r =>
      if r.id == row.id then { r with auth_token := some t1 } else r)).find?
        (fun r => r.username == normalizeUsername u) = some row1 := hfind1
  rw [List.find?_map] at hfind1'
  have hcomp : ((fun r : UserRow => r.username == normalizeUsername u) ∘ (fun r =>
      if r.id == row.id then { r with auth_token := some t1 } else r)) =
      (fun r : UserRow => r.username == normalizeUsername u) := by
    funext r
    show ((if r.id == row.id then { r with auth_token := some t1 } else r).username ==
      normalizeUsername u) = (r.username == normalizeUsername u)
    have hu : (if r.id == row.id then { r with auth_token := some t1 } else r).username
        = r.username := by
      split <;> rfl
    rw [hu]
  rw [hcomp, hfind, Option.map_some'] at hfind1'
  have hfrow : (if row.id == row.id then ({ row with auth_token := some t1 } : UserRow)
      else row) = { row with auth_token := some t1 } := if_pos (beq_self_eq_true row.id)
  rw [hfrow] at hfind1'
  injection hfind1' with hrow1
  have hrow1id : row1.id = row.id := by rw [← hrow1]
  have hne12 : t1 ≠ t2 := by
    rw [ht1, ht2']
    intro hcontra
    have := mkToken_injective hcontra
    omega
  subst hdb2
  have husers2 : (({ db with
      users := db.users.map (fun r =>
        if r.id == row.id then { r with auth_token := some t1 } else r),
      nextNonce := db.nextNonce + 1 } : DB).users.map (fun r =>
        if r.id == row1.id then { r with auth_token := some t2 } else r)) =
      (db.users.map (fun r =>
        if r.id == row.id then { r with auth_token := some t1 } else r)).map
        (fun r => if r.id == row1.id then { r with auth_token := some t2 } else r) :=
    rfl
  refine ⟨hne12, ?_, ?_⟩
  · show (if (t1 == "") = true then none else
      Option.map (fun r => ({ id := r.id, username := r.username } : UserIdent))
        ((({ db with
          users := db.users.map (fun r =>
            if r.id == row.id then { r with auth_token := some t1 } else r),
          nextNonce := db.nextNonce + 1 } : DB).users.map (fun r =>
            if r.id == row1.id then { r with auth_token := some t2 } else r)).find?
          (fun r => r.auth_token == some t1))) = none
    rw [if_neg (by simp only [beq_eq_false_iff_ne.mpr
      (show t1 ≠ "" by rw [ht1]; exact mkToken_ne_empty _)]; exact Bool.false_ne_true)]
    rw [husers2, List.map_map]
    have hnone : ((db.users.map ((fun r =>
        if r.id == row1.id then { r with auth_token := some t2 } else r) ∘ (fun r =>
        if r.id == row.id then { r with auth_token := some t1 } else r))).find?
        (fun r => r.auth_token == some t1)) = none := by
      rw [List.find?_eq_none]
      intro x hx
      obtain ⟨r0, hr0, hr0eq⟩ := List.mem_map.mp hx
      by_cases hc : (r0.id == row.id) = true
      · have hx2 : x = { r0 with auth_token := some t2 } := by
          rw [← hr0eq]
          simp [Function.comp, hrow1id, hc]
        rw [hx2]
        simp only [beq_iff_eq, Option.some.injEq]
        intro hcontra
        exact hne12 hcontra.symm
      · have hx2 : x = r0 := by
          rw [← hr0eq]
          simp [Function.comp, hrow1id, hc]
        rw [hx2]
        cases hta : r0.auth_token with
        | none => simp
        | some t' =>
          obtain ⟨n, hn, hmk⟩ := hminted r0 hr0 t' hta
          simp only [beq_iff_eq, Option.some.injEq]
          intro hcontra
          rw [ht1] at hcontra
          rw [hmk] at hcontra
          have := mkToken_injective hcontra
          omega
    rw [hnone]
    rfl
  · refine ⟨row, hfind, ?_⟩
    show (if (t2 == "") = true then none else
      Option.map (fun r => ({ id := r.id, username := r.username } : UserIdent))
        ((({ db with
          users := db.users.map (fun r =>
            if r.id == row.id then { r with auth_token := some t1 } else r),
          nextNonce := db.nextNonce + 1 } : DB).users.map (fun r =>
            if r.id == row1.id then { r with auth_token := some t2 } else r)).find?
          (fun r => r.auth_token == some t2))) =
      some { id := row.id, username := row.username }
    rw [if_neg (by simp only [beq_eq_false_iff_ne.mpr
      (show t2 ≠ "" by rw [ht2']; exact mkToken_ne_empty _)]; exact Bool.false_ne_true)]
    rw [husers2, List.map_map]
    have hgrow : ((fun r : UserRow =>
        if r.id == row1.id then { r with auth_token := some t2 } else r) ∘ (fun r =>
        if r.id == row.id then { r with auth_token := some t1 } else r)) row =
        { row with auth_token := some t2 } := by
      simp [Function.comp, hrow1id]
    have hfound : ((db.users.map ((fun r =>
        if r.id == row1.id then { r with auth_token := some t2 } else r) ∘ (fun r =>
        if r.id == row.id then { r with auth_token := some t1 } else r))).find?
        (fun r => r.auth_token == some t2)) =
        some { row with auth_token := some t2 } := by
      apply find?_eq_some_of_mem_of_unique
      · rw [← hgrow]
        exact List.mem_map_of_mem _ hrowmem
      · simp
      · intro x hx hpx
        obtain ⟨r0, hr0, hr0eq⟩ := List.mem_map.mp hx
        by_cases hc : (r0.id == row.id) = true
        · have hr0row : r0 = row :=
            List.inj_on_of_nodup_map hnodupId hr0 hrowmem (beq_iff_eq.mp hc)
          rw [← hr0eq, hr0row]
          exact hgrow
        · have hx2 : x = r0 := by
            rw [← hr0eq]
            simp [Function.comp, hrow1id, hc]
          rw [hx2] at hpx
          cases hta : r0.auth_token with
          | none => rw [hta] at hpx; exact absurd hpx (by simp)
          | some t' =>
            obtain ⟨n, hn, hmk⟩ := hminted r0 hr0 t' hta
            rw [hta] at hpx
            simp only [beq_iff_eq, Option.some.injEq] at hpx
            rw [hmk, ht2'] at hpx
            have := mkToken_injective hpx
            omega
    rw [hfound]
    rfl

/-- C1 witness: register `"demo"`, log in twice; the two tokens differ, the
first stops resolving, the second resolves to the demo user. -/
theorem c1_second_login_invalidates_first_witness :
    mkToken 0 ≠ mkToken 1 ∧
    get_user_by_token
      (login_user (login_user (exec [Op.register "demo" "secret123" 0])
        "demo" "secret123").2 "demo" "secret123").2 (some (mkToken 0)) = none ∧
    ∃ row, (exec [Op.register "demo" "secret123" 0]).users.find?
        (fun r => r.username == normalizeUsername "demo") = some row ∧
      get_user_by_token
        (login_user (login_user (exec [Op.register "demo" "secret123" 0])
          "demo" "secret123").2 "demo" "secret123").2 (some (mkToken 1)) =
        some { id := row.id, username := row.username } :=
  c1_second_login_invalidates_first (exec [Op.register "demo" "secret123" 0])
    "demo" "secret123" (mkToken 0) (mkToken 1)
    (login_user (exec [Op.register "demo" "secret123" 0]) "demo" "secret123").2
    (login_user (login_user (exec [Op.register "demo" "secret123" 0])
      "demo" "secret123").2 "demo" "secret123").2
    ⟨[Op.register "demo" "secret123" 0], rfl⟩ (by decide) (by decide)

/-- C10: along every trace from the initialized store, a user whose id
never completed a successful login holds a null `auth_token`; token
resolution only ever returns users that did complete a login, and it only
succeeds by matching a non-null stored token against a non-empty presented
token; a missing or empty token is rejected without any lookup. -/
theorem c10_tokens_only_from_logins (ops : List Op) :
    (∀ r ∈ (execLog ops).1.users, r.id ∉ (execLog ops).2 → r.auth_token = none) ∧
    (∀ (t : String) (ident : UserIdent),
      get_user_by_token (execLog ops).1 (some t) = some ident →
      ident.id ∈ (execLog ops).2 ∧
      ∃ r ∈ (execLog ops).1.users, r.auth_token = some t ∧ r.id = ident.id ∧ t ≠ "") ∧
    get_user_by_token (execLog ops).1 none = none ∧
    get_user_by_token (execLog ops).1 (some "") = none := by
  obtain ⟨hstore, hlog⟩ := storeInv_execLog ops
  refine ⟨?_, ?_, rfl, ?_⟩
  · intro r hr hnot
    by_contra hne
    exact hnot (hlog r hr hne)
  · intro t ident hres
    replace hres : (if (t == "") = true then none else
        Option.map (fun r => ({ id := r.id, username := r.username } : UserIdent))
          ((execLog ops).1.users.find? (fun r => r.auth_token == some t))) =
        some ident := hres
    by_cases hts : (t == "") = true
    · rw [if_pos hts] at hres
      exact Option.noConfusion hres
    · rw [if_neg hts] at hres
      cases hfind : (execLog ops).1.users.find? (fun r => r.auth_token == some t) with
      | none =>
        rw [hfind] at hres
        exact Option.noConfusion hres
      | some r =>
        rw [hfind, Option.map_some'] at hres
        injection hres with hres
        have hmem := List.mem_of_find?_eq_some hfind
        have htok : r.auth_token = some t := by
          have := List.find?_some hfind
          exact beq_iff_eq.mp this
        have hid : r.id = ident.id := by rw [← hres]
        refine ⟨?_, r, hmem, htok, hid, ?_⟩
        · rw [← hid]
          exact hlog r hmem (by rw [htok]; exact Option.noConfusion)
        · exact beq_eq_false_iff_ne.mp (Bool.not_eq_true _ ▸ eq_false_of_ne_true hts)
  · show (if (("" : String) == "") = true then none else
      Option.map (fun r => ({ id := r.id, username := r.username } : UserIdent))
        ((execLog ops).1.users.find? (fun r => r.auth_token == some ""))) = none
    rw [if_pos (beq_self_eq_true ("" : String))]

/-- C10 witness: after a registration trace without logins, the demo
user's token is null and the theorem's null-token conclusion applies to
it. -/
theorem c10_tokens_only_from_logins_witness :
    ({ id := 1, username := "demo", password_hash := generate_password_hash "pw",
       auth_token := none, created_at := 0 } : UserRow) ∈
      (execLog [Op.register "demo" "pw" 0]).1.users ∧
    (1 : Nat) ∉ (execLog [Op.register "demo" "pw" 0]).2 ∧
    ({ id := 1, username := "demo", password_hash := generate_password_hash "pw",
       auth_token := none, created_at := 0 } : UserRow).auth_token = none :=
  ⟨by decide, by decide,
    (c10_tokens_only_from_logins [Op.register "demo" "pw" 0]).1
      { id := 1, username := "demo", password_hash := generate_password_hash "pw",
        auth_token := none, created_at := 0 }
      (by decide) (by decide)⟩

end RemoveBg
